import Mathlib

/-!
Shallow embedding of `gcp/table_gcp_admin_reports_login_activity.go`
(steampipe-plugin-gcp): the bounded paginated list fetcher for Google
Workspace Admin Reports login activities, its qualifier translation, and
its per-column transform functions.

Machine integers (`int`, `int64`) are modelled as `Int`; time instants are
modelled as `Int` nanoseconds since an arbitrary epoch (`time.Time`
arithmetic in the source is pure nanosecond arithmetic at the precision the
code uses: `time.Nanosecond = 1`, `180 * 24 * time.Hour` = `180 * 24 *
3600 * 10^9` ns).  The external Remote Activity Source is modelled, as the
spec describes it, by a list of responses consumed one per page request;
the external SDK row-budget query `d.RowsRemaining` is modelled from the
spec as `rowLimit - rowsStreamedSoFar` (no limit: never zero).
-/

/-- Protobuf qualifier value (`proto.QualValue`): a oneof that is either a
timestamp, a string, or some other kind.  `GetTimestampValue` is non-nil
exactly on the timestamp arm; `GetStringValue` returns the empty string off
the string arm. -/
inductive QualValue where
  | tsv (ns : Int)
  | strv (s : String)
  | otherv
deriving DecidableEq, Repr

/-- Models `q.Value.GetTimestampValue()` (`nil` becomes `none`). -/
def getTimestampValue : QualValue → Option Int
  | .tsv n => some n
  | _ => none

/-- Models `q.Value.GetStringValue()` (zero value `""` off the string arm). -/
def getStringValue : QualValue → String
  | .strv s => s
  | _ => ""

/-- One qualifier (`quals.Quals` entry): an operator string and an optional
value (`q.Value` may be nil). -/
structure Qual where
  operator : String
  value : Option QualValue
deriving DecidableEq, Repr

/-- The parts of `plugin.QueryData` the list function reads: the qualifier
map `d.Quals` (absent key: nil) and the optional SQL limit
`d.QueryContext.Limit`. -/
structure QueryData where
  quals : List (String × List Qual)
  limit : Option Int
deriving DecidableEq, Repr

/-- Activity identity (`adminreports.ActivityId`), fields read by the code. -/
structure ActivityId where
  time : String
  uniqueQualifier : String
  applicationName : String
deriving DecidableEq, Repr

/-- Activity actor (`adminreports.ActivityActor`), fields read by the code. -/
structure Actor where
  email : String
  profileId : String
  callerType : String
deriving DecidableEq, Repr

/-- One sub-event (`adminreports.ActivityEvents`); only `Name` is read by
the transforms. -/
structure ActivityEvents where
  name : String
deriving DecidableEq, Repr

/-- Activity record (`adminreports.Activity`).  Go nil pointers and the nil
slice are `none`. -/
structure Activity where
  id : Option ActivityId
  actor : Option Actor
  ipAddress : String
  events : Option (List ActivityEvents)
deriving DecidableEq, Repr

/-- Transform `extractFirstEventName`: its `d.Value` is the `Events` field
(`none` models both a failed type assertion and a nil slice, which the code
folds into one branch via `!ok || len(events) == 0`).  Second component is
the Go `error` return, always nil. -/
def extractFirstEventName : Option (List ActivityEvents) → String × Option String
  | none => ("", none)
  | some [] => ("", none)
  | some (e :: _) => (e.name, none)

/-- Body of the `for _, e := range activity.Events` loop in
`extractEventNames`: append the name when it is non-empty. -/
def nameStep (acc : List String) (e : ActivityEvents) : List String :=
  if e.name ≠ "" then acc ++ [e.name] else acc

/-- Transform `extractEventNames` (the `tags` column): reads
`d.HydrateItem` (a failed cast or nil `Events` returns nil), then collects
the non-empty event names in order. -/
def extractEventNames : Option Activity → Option (List String) × Option String
  | none => (none, none)
  | some a =>
    match a.events with
    | none => (none, none)
    | some es => (some (es.foldl nameStep []), none)

/-- Transform `convertTimeToString`: `Id.Time` or `""` when the identity is
absent or its time empty. -/
def convertTimeToString : Option Activity → String × Option String
  | none => ("", none)
  | some a =>
    match a.id with
    | none => ("", none)
    | some i => if i.time = "" then ("", none) else (i.time, none)

/-- Transform `formatTitleWithActorEmail`: first argument is `d.Value`
(the chained time string; `none` models a failed string assertion), second
is `d.HydrateItem`. -/
def formatTitleWithActorEmail : Option String → Option Activity → Option String × Option String
  | none, _ => (none, none)
  | some t, none => (some t, none)
  | some t, some a =>
    match a.actor with
    | none => (some t, none)
    | some act => if act.email = "" then (some t, none)
                  else (some (t ++ " - " ++ act.email), none)

/-- The get hydrate `getGcpAdminReportsLoginActivity`: a stub returning
`nil, nil`. -/
def getGcpAdminReportsLoginActivity (_d : QueryData) : Option Activity × Option String :=
  (none, none)

/-- The optional key columns declared for the List config in
`tableGcpAdminReportsLoginActivity` (lines 25-30 of the source). -/
def listKeyColumns : List String :=
  ["time", "actor_email", "ip_address", "event_name"]

/-- Nanoseconds in `24 * time.Hour`. -/
def nsPerDay : Int := 24 * 3600 * 1000000000

/-- Default window start: `now.Add(-180 * 24 * time.Hour)`. -/
def defaultWindowStart (now : Int) : Int := now - 180 * nsPerDay

/-- One step of the `switch q.Operator` in the time-qualifier loop, applied
to the current `(startTime, endTime)` pair; a qualifier with no timestamp
value is skipped by the surrounding `if`. -/
def applyTimeQual (se : Int × Int) (q : Qual) : Int × Int :=
  match q.value.bind getTimestampValue with
  | none => se
  | some t =>
    if q.operator = "=" then (t, t)
    else if q.operator = ">" then (t + 1, se.2)
    else if q.operator = ">=" then (t, se.2)
    else if q.operator = "<" then (se.1, t - 1)
    else if q.operator = "<=" then (se.1, t)
    else se

/-- Resolution of `startTime` / `endTime` from `d.Quals["time"]` (source
lines 156-179). -/
def resolveWindow (now : Int) (quals : Option (List Qual)) : Int × Int :=
  match quals with
  | none => (defaultWindowStart now, now)
  | some qs => qs.foldl applyTimeQual (defaultWindowStart now, now)

/-- First qualifier value that is present and a non-empty string (the
`for ... if q.Value != nil && q.Value.GetStringValue() != "" { ...; break }`
pattern shared by the three filter blocks). -/
def firstNonEmptyString : List Qual → Option String
  | [] => none
  | q :: rest =>
    match q.value with
    | none => firstNonEmptyString rest
    | some v => if getStringValue v = "" then firstNonEmptyString rest
                else some (getStringValue v)

/-- Server-side filter expression built from one field's qualifiers:
`field==` followed by the quoted value, or nothing. -/
def firstFilter (field : String) (quals : Option (List Qual)) : Option String :=
  match quals with
  | none => none
  | some qs => (firstNonEmptyString qs).map (fun s => field ++ "\"" ++ s ++ "\"")

/-- The filter expressions submitted with the call, in source order
(actor_email, ip_address, then the `event_names` lookup).  The spec models
the collaborator's `filters` modifier as repeatable, so expressions
accumulate in a list. -/
def mkFilters (d : QueryData) : List String :=
  (firstFilter "actor.email==" (d.quals.lookup "actor_email")).toList ++
  (firstFilter "ipAddress==" (d.quals.lookup "ip_address")).toList ++
  (firstFilter "events.name==" (d.quals.lookup "event_names")).toList

/-- Accumulated state of the `ActivitiesListCall` at the moment a page
request is executed. -/
structure CallState where
  startTime : Int
  endTime : Int
  filters : List String
  maxResults : Int
  pageToken : String
deriving DecidableEq, Repr

/-- One executed page request, with the ghost field `countBefore` recording
`totalCount` at the moment the request was issued. -/
structure Request where
  call : CallState
  countBefore : Nat
deriving DecidableEq, Repr

/-- One page returned by the Remote Activity Source. -/
structure Page where
  items : List Activity
  nextPageToken : String
deriving DecidableEq, Repr

/-- Response of the Remote Activity Source to one `call.Do()`. -/
inductive Resp where
  | ok (p : Page)
  | err (e : String)
deriving DecidableEq, Repr

/-- Observable outcome of one list invocation: the records streamed via
`d.StreamListItem` in order, the page requests issued in order, the
propagated error if any, and a model-only flag set when the supplied
response list ran out before the loop finished. -/
structure FetchOut where
  emitted : List Activity
  requests : List Request
  err : Option String
  truncated : Bool
deriving DecidableEq, Repr

/-- Modelled from the spec: the SDK's `d.RowsRemaining(ctx)` (the SDK is
not part of this repository).  Per the spec's row-budget description it is
the caller's row limit minus the rows streamed so far; with no limit it is
`-1`, never zero. -/
def rowsRemaining (limit : Option Int) (streamed : Nat) : Int :=
  match limit with
  | some l => l - streamed
  | none => -1

/-- Result of streaming one page's items. -/
structure StreamRes where
  emitted : List Activity
  count : Nat
  stopped : Bool
deriving DecidableEq, Repr

/-- The inner `for _, activity := range resp.Items` loop: stream the item,
increment `totalCount`, stop when `totalCount >= 500` or the caller's row
budget reaches zero. -/
def streamItems (limit : Option Int) : List Activity → Nat → StreamRes
  | [], c => ⟨[], c, false⟩
  | a :: rest, c =>
    if 500 ≤ c + 1 then ⟨[a], c + 1, true⟩
    else if rowsRemaining limit (c + 1) = 0 then ⟨[a], c + 1, true⟩
    else
      let r := streamItems limit rest (c + 1)
      ⟨a :: r.emitted, r.count, r.stopped⟩

/-- Glue for a page followed by further pagination. -/
def combine (es : List Activity) (req : Request) (out : FetchOut) : FetchOut :=
  ⟨es ++ out.emitted, req :: out.requests, out.err, out.truncated⟩

/-- The `for { ... call.Do() ... }` pagination loop (source lines 218-269):
consume responses one per request; on error return it at once; after a full
page, follow `NextPageToken` with `MaxResults` recomputed as the remaining
budget under the 500 cap and, when present, the caller's limit. -/
def paginate : Option Int → List Resp → CallState → Nat → FetchOut
  | _, [], call, c => ⟨[], [⟨call, c⟩], none, true⟩
  | _, .err e :: _, call, c => ⟨[], [⟨call, c⟩], some e, false⟩
  | limit, .ok p :: rest, call, c =>
    let r := streamItems limit p.items c
    if r.stopped then ⟨r.emitted, [⟨call, c⟩], none, false⟩
    else if p.nextPageToken = "" then ⟨r.emitted, [⟨call, c⟩], none, false⟩
    else if (500 : Int) - r.count ≤ 0 then ⟨r.emitted, [⟨call, c⟩], none, false⟩
    else
      match limit with
      | none =>
        combine r.emitted ⟨call, c⟩
          (paginate none rest
            { call with pageToken := p.nextPageToken, maxResults := 500 - r.count } r.count)
      | some l =>
        let nps : Int :=
          if (500 : Int) - r.count > l - r.count then l - (r.count : Int)
          else 500 - r.count
        if nps ≤ 0 then ⟨r.emitted, [⟨call, c⟩], none, false⟩
        else
          combine r.emitted ⟨call, c⟩
            (paginate (some l) rest
              { call with pageToken := p.nextPageToken, maxResults := nps } r.count)

/-- Initial `MaxResults`: 500, lowered to the caller's limit when that is
smaller (source lines 144-154). -/
def initialPageSize (limit : Option Int) : Int :=
  match limit with
  | some l => if l < 500 then l else 500
  | none => 500

/-- The list hydrate `listGcpAdminReportsLoginActivities`: initial
`MaxResults` is 500 lowered to the caller's limit; the time window is
resolved from the `time` qualifiers and, when empty (`startTime` after
`endTime`), the function returns immediately with no remote call; otherwise
the filters are attached and pagination runs against the supplied
responses. -/
def listGcpAdminReportsLoginActivities (now : Int) (d : QueryData)
    (responses : List Resp) : FetchOut :=
  let se := resolveWindow now (d.quals.lookup "time")
  if se.1 > se.2 then ⟨[], [], none, false⟩
  else
    paginate d.limit responses ⟨se.1, se.2, mkFilters d, initialPageSize d.limit, ""⟩ 0

/-! Reference (spec-side) definitions, used to state the claims against the
embedded code. -/

/-- Spec-side start-bound effect of one time qualifier: `=` sets start to
the literal instant, `>` to the value plus one nanosecond (strict
exclusion), `>=` to the value; other operators leave start alone. -/
def startUpdate (q : Qual) : Option Int :=
  match q.value.bind getTimestampValue with
  | none => none
  | some t =>
    if q.operator = "=" then some t
    else if q.operator = ">" then some (t + 1)
    else if q.operator = ">=" then some t
    else none

/-- Spec-side end-bound effect of one time qualifier: `=` sets end to the
literal instant, `<` to the value minus one nanosecond (strict exclusion),
`<=` to the value; other operators leave end alone. -/
def endUpdate (q : Qual) : Option Int :=
  match q.value.bind getTimestampValue with
  | none => none
  | some t =>
    if q.operator = "=" then some t
    else if q.operator = "<" then some (t - 1)
    else if q.operator = "<=" then some t
    else none

/-- Spec-side last-write-wins: the effect of the last qualifier in the list
that constrains the bound, if any (a later constraint overwrites an earlier
one). -/
def lastConstraint (f : Qual → Option Int) : List Qual → Option Int
  | [] => none
  | q :: rest =>
    match lastConstraint f rest with
    | some x => some x
    | none => f q

/-- Spec-side resolved window start: the last start constraint, defaulting
to `now` minus 180 days (15552000000000000 ns). -/
def specWindowStart (now : Int) (qs : List Qual) : Int :=
  (lastConstraint startUpdate qs).getD (now - 15552000000000000)

/-- Spec-side resolved window end: the last end constraint, defaulting to
`now`. -/
def specWindowEnd (now : Int) (qs : List Qual) : Int :=
  (lastConstraint endUpdate qs).getD now

/-- Spec-side page-size budget for a request issued after `c` records have
been emitted: the remaining budget under the 500 cap, further lowered by
the remaining budget under the caller's row limit when one is given. -/
def requestBudget (limit : Option Int) (c : Nat) : Int :=
  match limit with
  | none => 500 - (c : Int)
  | some l => min (500 - (c : Int)) (l - (c : Int))

/-- Spec-side translation of one equality qualifier: its string value when
present and non-empty, otherwise nothing. -/
def nonEmptyStringVal (q : Qual) : Option String :=
  match q.value with
  | none => none
  | some v => if getStringValue v = "" then none else some (getStringValue v)

/-! Concrete inputs used by witnesses and counterexamples. -/

/-- An activity record with every substructure absent. -/
def emptyActivity : Activity := ⟨none, none, "", none⟩

/-- An equality qualifier carrying a string value. -/
def qualStrEq (s : String) : Qual := ⟨"=", some (.strv s)⟩

/-- Query carrying an `event_name` qualifier (the declared key column). -/
def queryWithEventName : QueryData :=
  ⟨[("event_name", [qualStrEq "login_failure"])], none⟩

/-- Query carrying the qualifier under the undeclared key `event_names`. -/
def queryWithEventNames : QueryData :=
  ⟨[("event_names", [qualStrEq "login_failure"])], none⟩

/-- Query carrying an `actor_email` qualifier. -/
def queryWithActorEmail : QueryData :=
  ⟨[("actor_email", [qualStrEq "x@y.com"])], none⟩

/-- A single empty page with no continuation. -/
def onePageNoItems : List Resp := [.ok ⟨[], ""⟩]

/-- Query whose time qualifiers resolve to a window with start after end. -/
def queryEmptyWindow : QueryData :=
  ⟨[("time", [⟨">", some (.tsv 100)⟩, ⟨"<", some (.tsv 50)⟩])], none⟩

/-- Query with a SQL limit of 0 rows. -/
def queryLimit0 : QueryData := ⟨[], some 0⟩

/-- Query with a SQL limit of 1 row. -/
def queryLimit1 : QueryData := ⟨[], some 1⟩

/-- Query with a SQL limit of 7 rows. -/
def queryLimit7 : QueryData := ⟨[], some 7⟩

/-- Query with no qualifiers and no limit. -/
def queryNoQuals : QueryData := ⟨[], none⟩

/-- One final page holding a single record. -/
def pagesOneItem : List Resp := [.ok ⟨[emptyActivity], ""⟩]

/-- One final page holding two records. -/
def pagesTwoItems : List Resp := [.ok ⟨[emptyActivity, emptyActivity], ""⟩]

/-- A three-record page with a continuation, then a final empty page. -/
def pagesThreeThenEmpty : List Resp :=
  [.ok ⟨[emptyActivity, emptyActivity, emptyActivity], "t"⟩, .ok ⟨[], ""⟩]

/-- A one-record page with a continuation, then a failing request. -/
def pagesThenError : List Resp := [.ok ⟨[emptyActivity], "t"⟩, .err "boom"]

/-- The first request issued by the run of `queryLimit7` over
`pagesThreeThenEmpty` (window defaults resolved at `now = 0`). -/
def reqLimit7First : Request := ⟨⟨-15552000000000000, 0, [], 7, ""⟩, 0⟩

/-- The event list of the spec's `allEventNames` example. -/
def eventsExample : List ActivityEvents := [⟨"login_success"⟩, ⟨""⟩, ⟨"login_failure"⟩]

/-- The activity of the spec's `allEventNames` example. -/
def activityExample : Activity := ⟨none, none, "", some eventsExample⟩

/-! Helper lemmas. -/

lemma applyTimeQual_fst (se : Int × Int) (q : Qual) :
    (applyTimeQual se q).1 = (startUpdate q).getD se.1 := by
  unfold applyTimeQual startUpdate
  cases hv : q.value.bind getTimestampValue with
  | none => simp
  | some t =>
    by_cases h1 : q.operator = "="
    · simp [h1]
    · by_cases h2 : q.operator = ">"
      · simp [h1, h2]
      · by_cases h3 : q.operator = ">="
        · simp [h1, h2, h3]
        · by_cases h4 : q.operator = "<"
          · simp [h1, h2, h3, h4]
          · by_cases h5 : q.operator = "<="
            · simp [h1, h2, h3, h4, h5]
            · simp [h1, h2, h3, h4, h5]

lemma applyTimeQual_snd (se : Int × Int) (q : Qual) :
    (applyTimeQual se q).2 = (endUpdate q).getD se.2 := by
  unfold applyTimeQual endUpdate
  cases hv : q.value.bind getTimestampValue with
  | none => simp
  | some t =>
    by_cases h1 : q.operator = "="
    · simp [h1]
    · by_cases h2 : q.operator = ">"
      · simp [h1, h2]
      · by_cases h3 : q.operator = ">="
        · simp [h1, h2, h3]
        · by_cases h4 : q.operator = "<"
          · simp [h1, h2, h3, h4]
          · by_cases h5 : q.operator = "<="
            · simp [h1, h2, h3, h4, h5]
            · simp [h1, h2, h3, h4, h5]

lemma foldl_applyTimeQual_fst : ∀ (qs : List Qual) (se : Int × Int),
    (qs.foldl applyTimeQual se).1 = (lastConstraint startUpdate qs).getD se.1 := by
  intro qs
  induction qs with
  | nil => intro se; rfl
  | cons q rest ih =>
    intro se
    rw [List.foldl_cons, ih (applyTimeQual se q)]
    cases hlc : lastConstraint startUpdate rest with
    | some x => simp [lastConstraint, hlc]
    | none => simp [lastConstraint, hlc, applyTimeQual_fst]

lemma foldl_applyTimeQual_snd : ∀ (qs : List Qual) (se : Int × Int),
    (qs.foldl applyTimeQual se).2 = (lastConstraint endUpdate qs).getD se.2 := by
  intro qs
  induction qs with
  | nil => intro se; rfl
  | cons q rest ih =>
    intro se
    rw [List.foldl_cons, ih (applyTimeQual se q)]
    cases hlc : lastConstraint endUpdate rest with
    | some x => simp [lastConstraint, hlc]
    | none => simp [lastConstraint, hlc, applyTimeQual_snd]

lemma foldl_names_eq_filterMap : ∀ (es : List ActivityEvents) (acc : List String),
    es.foldl nameStep acc =
      acc ++ es.filterMap (fun e => if e.name = "" then none else some e.name) := by
  intro es
  induction es with
  | nil => intro acc; simp
  | cons e rest ih =>
    intro acc
    rw [List.foldl_cons]
    by_cases h : e.name = ""
    · have hcons :
          List.filterMap (fun e : ActivityEvents => if e.name = "" then none else some e.name)
              (e :: rest) =
            List.filterMap (fun e : ActivityEvents => if e.name = "" then none else some e.name)
              rest := by
        rw [List.filterMap_cons]
        simp [h]
      rw [show nameStep acc e = acc from by simp [nameStep, h], ih acc, hcons]
    · have hcons :
          List.filterMap (fun e : ActivityEvents => if e.name = "" then none else some e.name)
              (e :: rest) =
            e.name ::
              List.filterMap (fun e : ActivityEvents => if e.name = "" then none else some e.name)
                rest := by
        rw [List.filterMap_cons]
        simp [h]
      rw [show nameStep acc e = acc ++ [e.name] from by simp [nameStep, h],
        ih (acc ++ [e.name]), hcons]
      simp

lemma firstNonEmptyString_eq_head : ∀ qs : List Qual,
    firstNonEmptyString qs = (qs.filterMap nonEmptyStringVal).head? := by
  intro qs
  induction qs with
  | nil => rfl
  | cons q rest ih =>
    cases hv : q.value with
    | none => simp [firstNonEmptyString, nonEmptyStringVal, hv, List.filterMap_cons, ih]
    | some v =>
      by_cases hs : getStringValue v = "" <;>
        simp [firstNonEmptyString, nonEmptyStringVal, hv, hs, List.filterMap_cons, ih]

/-! Claim theorems. -/

/-- C9: the point-lookup hydrate keyed by (time, unique_qualifier,
actor_email) is a stub: on every input it returns no result and no
error. -/
theorem get_stub_returns_nothing :
    ∀ d : QueryData, getGcpAdminReportsLoginActivity d = (none, none) :=
  fun _ => rfl

/-- C3: the resolved time window equals the reference policy: default
window `[now - 180 days, now]` when no constraint is given; `=` sets both
bounds to the instant, `>` sets start to the value plus one nanosecond,
`>=` sets start to the value, `<` sets end to the value minus one
nanosecond, `<=` sets end to the value; for each bound the last constraint
in the qualifier list wins. -/
theorem resolveWindow_matches_policy (now : Int) :
    (∀ qs : List Qual,
      resolveWindow now (some qs) = (specWindowStart now qs, specWindowEnd now qs)) ∧
    resolveWindow now none = (now - 15552000000000000, now) := by
  constructor
  · intro qs
    have h1 := foldl_applyTimeQual_fst qs (defaultWindowStart now, now)
    have h2 := foldl_applyTimeQual_snd qs (defaultWindowStart now, now)
    have hd : defaultWindowStart now = now - 15552000000000000 := by
      unfold defaultWindowStart nsPerDay; norm_num
    unfold resolveWindow specWindowStart specWindowEnd
    refine Prod.ext ?_ ?_
    · rw [h1]; simp [hd]
    · rw [h2]
  · unfold resolveWindow defaultWindowStart nsPerDay
    norm_num

/-- C10: for each filterable field, the server-side filter built from the
field's qualifier list is exactly the first qualifier carrying a present,
non-empty string value, rendered as the field expression followed by the
quoted value; qualifiers whose value is absent or the empty string
contribute nothing. -/
theorem firstFilter_first_nonempty :
    ∀ (fld : String) (qs : List Qual),
      firstFilter fld (some qs) =
        ((qs.filterMap nonEmptyStringVal).head?).map (fun s => fld ++ "\"" ++ s ++ "\"") ∧
      firstFilter fld none = none := by
  intro fld qs
  constructor
  · simp only [firstFilter]
    rw [firstNonEmptyString_eq_head]
  · rfl

/-- C7: the tags transform collects the record's event names in their
original order with empty names removed (stated via `filterMap`, which
preserves order and drops exactly the empty names). -/
theorem extractEventNames_filters_names :
    ∀ (a : Activity) (es : List ActivityEvents), a.events = some es →
      extractEventNames (some a) =
        (some (es.filterMap (fun e => if e.name = "" then none else some e.name)), none) := by
  intro a es h
  simp only [extractEventNames, h]
  rw [foldl_names_eq_filterMap]
  simp

/-- C7 witness: on the spec's example list the transform yields exactly
`["login_success", "login_failure"]`, and on an empty event list it yields
the empty sequence. -/
theorem extractEventNames_filters_names_witness :
    extractEventNames (some activityExample) = (some ["login_success", "login_failure"], none) ∧
    extractEventNames (some ⟨none, none, "", some []⟩) = (some [], none) := by
  constructor
  · rw [extractEventNames_filters_names activityExample eventsExample rfl]
    rfl
  · rw [extractEventNames_filters_names ⟨none, none, "", some []⟩ [] rfl]
    rfl

/-- C8: every field transform is total — it never returns an error, for
every record including ones with absent events, actor, or identity — and
degrades to the empty/default value on missing substructure; the title is
the time string alone when the actor or its email is absent, and
`time - email` otherwise. -/
theorem transforms_total_defaults :
    (∀ v, (extractFirstEventName v).2 = none) ∧
    (∀ it, (extractEventNames it).2 = none) ∧
    (∀ it, (convertTimeToString it).2 = none) ∧
    (∀ v it, (formatTitleWithActorEmail v it).2 = none) ∧
    ((extractFirstEventName none).1 = "" ∧ (extractFirstEventName (some [])).1 = "") ∧
    (∀ a : Activity, a.id = none → (convertTimeToString (some a)).1 = "") ∧
    (∀ (t : String) (a : Activity), a.actor = none →
      (formatTitleWithActorEmail (some t) (some a)).1 = some t) ∧
    (∀ (t : String) (a : Activity) (ac : Actor), a.actor = some ac → ac.email = "" →
      (formatTitleWithActorEmail (some t) (some a)).1 = some t) ∧
    (∀ (t : String) (a : Activity) (ac : Actor), a.actor = some ac → ac.email ≠ "" →
      (formatTitleWithActorEmail (some t) (some a)).1 = some (t ++ " - " ++ ac.email)) := by
  refine ⟨?_, ?_, ?_, ?_, ⟨rfl, rfl⟩, ?_, ?_, ?_, ?_⟩
  · intro v
    rcases v with _ | (_ | ⟨e, es⟩) <;> rfl
  · intro it
    rcases it with _ | a
    · rfl
    · rcases hev : a.events with _ | es <;> simp [extractEventNames, hev]
  · intro it
    rcases it with _ | a
    · rfl
    · rcases hid : a.id with _ | i
      · simp [convertTimeToString, hid]
      · simp only [convertTimeToString, hid]
        split <;> rfl
  · intro v it
    rcases v with _ | t
    · rfl
    · rcases it with _ | a
      · rfl
      · rcases hac : a.actor with _ | ac
        · simp [formatTitleWithActorEmail, hac]
        · simp only [formatTitleWithActorEmail, hac]
          split <;> rfl
  · intro a h
    simp [convertTimeToString, h]
  · intro t a h
    simp [formatTitleWithActorEmail, h]
  · intro t a ac hac he
    simp [formatTitleWithActorEmail, hac, he]
  · intro t a ac hac he
    simp [formatTitleWithActorEmail, hac, he]

/-- C8 witness: the title transform at the spec's example inputs — present
actor email gives `time - email`, absent actor gives the time string
alone. -/
theorem transforms_total_defaults_witness :
    (formatTitleWithActorEmail (some "2024-01-01T00:00:00Z")
        (some ⟨none, some ⟨"a@b.com", "", ""⟩, "", none⟩)).1 =
      some ("2024-01-01T00:00:00Z" ++ " - " ++ "a@b.com") ∧
    (formatTitleWithActorEmail (some "2024-01-01T00:00:00Z") (some emptyActivity)).1 =
      some "2024-01-01T00:00:00Z" :=
  ⟨transforms_total_defaults.2.2.2.2.2.2.2.2 "2024-01-01T00:00:00Z"
      ⟨none, some ⟨"a@b.com", "", ""⟩, "", none⟩ ⟨"a@b.com", "", ""⟩ rfl (by decide),
    transforms_total_defaults.2.2.2.2.2.2.1 "2024-01-01T00:00:00Z" emptyActivity rfl⟩

/-- C4: the table declares the filterable qualifier column `event_name`,
but the list hydrate reads the qualifier map under the undeclared key
`event_names`; consequently an event-name qualifier delivered under the
declared column name produces no server-side filter at all, while the same
qualifier would produce `events.name=="login_failure"` only under the
key the table never declares.  The actor_email translation, by contrast,
sends exactly its one filter. -/
theorem event_name_qual_filter_mismatch :
    "event_name" ∈ listKeyColumns ∧
    "event_names" ∉ listKeyColumns ∧
    (listGcpAdminReportsLoginActivities 0 queryWithEventName onePageNoItems).requests.map
        (fun r => r.call.filters) = [[]] ∧
    (listGcpAdminReportsLoginActivities 0 queryWithEventNames onePageNoItems).requests.map
        (fun r => r.call.filters) = [["events.name==\"login_failure\""]] ∧
    (listGcpAdminReportsLoginActivities 0 queryWithActorEmail onePageNoItems).requests.map
        (fun r => r.call.filters) = [["actor.email==\"x@y.com\""]] := by
  decide

/-- C2: whenever the resolved time window has start strictly after end, the
list fetch streams nothing, issues no page request, and reports no
error. -/
theorem empty_window_no_call :
    ∀ (now : Int) (d : QueryData) (rs : List Resp),
      (resolveWindow now (d.quals.lookup "time")).1 >
          (resolveWindow now (d.quals.lookup "time")).2 →
      listGcpAdminReportsLoginActivities now d rs = ⟨[], [], none, false⟩ := by
  intro now d rs h
  simp only [listGcpAdminReportsLoginActivities]
  rw [if_pos h]

/-- C2 witness: time qualifiers `> 100` and `< 50` resolve to the window
`[101, 49]`, and the fetch over a non-empty server returns the empty
outcome with no requests. -/
theorem empty_window_no_call_witness :
    listGcpAdminReportsLoginActivities 0 queryEmptyWindow pagesOneItem =
      ⟨[], [], none, false⟩ :=
  empty_window_no_call 0 queryEmptyWindow pagesOneItem (by decide)

lemma streamItems_spec : ∀ (limit : Option Int) (items : List Activity) (c : Nat),
    (streamItems limit items c).count = c + (streamItems limit items c).emitted.length ∧
    (c < 500 → (streamItems limit items c).count ≤ 500) ∧
    (c < 500 → (streamItems limit items c).stopped = false →
      (streamItems limit items c).count < 500) ∧
    (∀ l, limit = some l → (c : Int) < l → ((streamItems limit items c).count : Int) ≤ l) ∧
    (∀ l, limit = some l → (c : Int) < l → (streamItems limit items c).stopped = false →
      ((streamItems limit items c).count : Int) < l) := by
  intro limit items
  induction items with
  | nil =>
    intro c
    refine ⟨by simp [streamItems], ?_, ?_, ?_, ?_⟩
    · intro h; simp [streamItems]; omega
    · intro h _; simp [streamItems]; omega
    · intro l hl hc; simp [streamItems]; omega
    · intro l hl hc _; simp [streamItems]; omega
  | cons a rest ih =>
    intro c
    by_cases h1 : 500 ≤ c + 1
    · refine ⟨by simp [streamItems, h1], ?_, ?_, ?_, ?_⟩
      · intro h; simp [streamItems, h1]; omega
      · intro h hs; simp [streamItems, h1] at hs
      · intro l hl hc; simp [streamItems, h1]; omega
      · intro l hl hc hs; simp [streamItems, h1] at hs
    · by_cases h2 : rowsRemaining limit (c + 1) = 0
      · have hred : streamItems limit (a :: rest) c = ⟨[a], c + 1, true⟩ := by
          simp [streamItems, h1, h2]
        refine ⟨by rw [hred]; simp, ?_, ?_, ?_, ?_⟩
        · intro h; rw [hred]; simp; omega
        · intro h hs; rw [hred] at hs; simp at hs
        · intro l hl hc
          subst hl
          simp only [rowsRemaining] at h2
          rw [hred]
          simp
          omega
        · intro l hl hc hs
          rw [hred] at hs
          simp at hs
      · have ih' := ih (c + 1)
        have hred : streamItems limit (a :: rest) c =
            ⟨a :: (streamItems limit rest (c + 1)).emitted,
              (streamItems limit rest (c + 1)).count,
              (streamItems limit rest (c + 1)).stopped⟩ := by
          simp [streamItems, h1, h2]
        refine ⟨?_, ?_, ?_, ?_, ?_⟩
        · rw [hred]; simp; omega
        · intro h
          rw [hred]
          exact ih'.2.1 (by omega)
        · intro h hs
          rw [hred] at hs ⊢
          exact ih'.2.2.1 (by omega) hs
        · intro l hl hc
          subst hl
          simp only [rowsRemaining] at h2
          rw [hred]
          exact ih'.2.2.2.1 l rfl (by omega)
        · intro l hl hc hs
          subst hl
          simp only [rowsRemaining] at h2
          rw [hred] at hs ⊢
          exact ih'.2.2.2.2 l rfl (by omega) hs

lemma paginate_nil (limit : Option Int) (call : CallState) (c : Nat) :
    paginate limit [] call c = ⟨[], [⟨call, c⟩], none, true⟩ := by
  simp [paginate]

lemma paginate_err_head (limit : Option Int) (e : String) (rest : List Resp)
    (call : CallState) (c : Nat) :
    paginate limit (.err e :: rest) call c = ⟨[], [⟨call, c⟩], some e, false⟩ := by
  simp [paginate]

lemma paginate_ok_stopped (limit : Option Int) (p : Page) (rest : List Resp)
    (call : CallState) (c : Nat)
    (h : (streamItems limit p.items c).stopped = true) :
    paginate limit (.ok p :: rest) call c =
      ⟨(streamItems limit p.items c).emitted, [⟨call, c⟩], none, false⟩ := by
  simp [paginate, h]

lemma paginate_ok_lastpage (limit : Option Int) (p : Page) (rest : List Resp)
    (call : CallState) (c : Nat)
    (h : (streamItems limit p.items c).stopped = false) (ht : p.nextPageToken = "") :
    paginate limit (.ok p :: rest) call c =
      ⟨(streamItems limit p.items c).emitted, [⟨call, c⟩], none, false⟩ := by
  simp [paginate, h, ht]

lemma paginate_ok_capped (limit : Option Int) (p : Page) (rest : List Resp)
    (call : CallState) (c : Nat)
    (h : (streamItems limit p.items c).stopped = false) (ht : ¬ p.nextPageToken = "")
    (hr : (500 : Int) - (streamItems limit p.items c).count ≤ 0) :
    paginate limit (.ok p :: rest) call c =
      ⟨(streamItems limit p.items c).emitted, [⟨call, c⟩], none, false⟩ := by
  simp [paginate, h, ht, hr]

lemma paginate_ok_next_none (p : Page) (rest : List Resp) (call : CallState) (c : Nat)
    (h : (streamItems none p.items c).stopped = false) (ht : ¬ p.nextPageToken = "")
    (hr : ¬ (500 : Int) - (streamItems none p.items c).count ≤ 0) :
    paginate none (.ok p :: rest) call c =
      combine (streamItems none p.items c).emitted ⟨call, c⟩
        (paginate none rest
          { call with
            pageToken := p.nextPageToken
            maxResults := 500 - (streamItems none p.items c).count }
          (streamItems none p.items c).count) := by
  simp [paginate, h, ht, hr]

lemma paginate_ok_next_some_stop (l : Int) (p : Page) (rest : List Resp)
    (call : CallState) (c : Nat)
    (h : (streamItems (some l) p.items c).stopped = false) (ht : ¬ p.nextPageToken = "")
    (hr : ¬ (500 : Int) - (streamItems (some l) p.items c).count ≤ 0)
    (hn : (if (500 : Int) - (streamItems (some l) p.items c).count >
              l - (streamItems (some l) p.items c).count
            then l - ((streamItems (some l) p.items c).count : Int)
            else (500 : Int) - (streamItems (some l) p.items c).count) ≤ 0) :
    paginate (some l) (.ok p :: rest) call c =
      ⟨(streamItems (some l) p.items c).emitted, [⟨call, c⟩], none, false⟩ := by
  simp only [paginate]
  rw [h]
  simp only [Bool.false_eq_true, if_false]
  rw [if_neg ht, if_neg hr, if_pos hn]

lemma paginate_ok_next_some (l : Int) (p : Page) (rest : List Resp)
    (call : CallState) (c : Nat)
    (h : (streamItems (some l) p.items c).stopped = false) (ht : ¬ p.nextPageToken = "")
    (hr : ¬ (500 : Int) - (streamItems (some l) p.items c).count ≤ 0)
    (hn : ¬ (if (500 : Int) - (streamItems (some l) p.items c).count >
                l - (streamItems (some l) p.items c).count
              then l - ((streamItems (some l) p.items c).count : Int)
              else (500 : Int) - (streamItems (some l) p.items c).count) ≤ 0) :
    paginate (some l) (.ok p :: rest) call c =
      combine (streamItems (some l) p.items c).emitted ⟨call, c⟩
        (paginate (some l) rest
          { call with
            pageToken := p.nextPageToken
            maxResults :=
              if (500 : Int) - (streamItems (some l) p.items c).count >
                  l - (streamItems (some l) p.items c).count
              then l - ((streamItems (some l) p.items c).count : Int)
              else (500 : Int) - (streamItems (some l) p.items c).count }
          (streamItems (some l) p.items c).count) := by
  simp only [paginate]
  rw [h]
  simp only [Bool.false_eq_true, if_false]
  rw [if_neg ht, if_neg hr, if_neg hn]

lemma paginate_emitted_bound : ∀ (rs : List Resp) (limit : Option Int) (call : CallState) (c : Nat),
    c < 500 →
    ((paginate limit rs call c).emitted.length + c ≤ 500) ∧
    (∀ l, limit = some l → (c : Int) < l →
      ((paginate limit rs call c).emitted.length : Int) + c ≤ l) := by
  intro rs
  induction rs with
  | nil =>
    intro limit call c hc
    rw [paginate_nil]
    exact ⟨by simp; omega, fun l hl hcl => by simp; omega⟩
  | cons resp rest ih =>
    intro limit call c hc
    cases resp with
    | err e =>
      rw [paginate_err_head]
      exact ⟨by simp; omega, fun l hl hcl => by simp; omega⟩
    | ok p =>
      have S := streamItems_spec limit p.items c
      by_cases hst : (streamItems limit p.items c).stopped = true
      · rw [paginate_ok_stopped limit p rest call c hst]
        constructor
        · have h1 := S.1
          have h2 := S.2.1 hc
          simp
          omega
        · intro l hl hcl
          have h1 := S.1
          have h4 := S.2.2.2.1 l hl hcl
          simp
          omega
      · have hst' : (streamItems limit p.items c).stopped = false := by
          revert hst
          cases (streamItems limit p.items c).stopped <;> simp
        have hcnt : (streamItems limit p.items c).count < 500 := S.2.2.1 hc hst'
        by_cases htok : p.nextPageToken = ""
        · rw [paginate_ok_lastpage limit p rest call c hst' htok]
          constructor
          · have h1 := S.1
            have h2 := S.2.1 hc
            simp
            omega
          · intro l hl hcl
            have h1 := S.1
            have h4 := S.2.2.2.1 l hl hcl
            simp
            omega
        · have hrem : ¬ ((500 : Int) - (streamItems limit p.items c).count ≤ 0) := by
            omega
          cases limit with
          | none =>
            rw [paginate_ok_next_none p rest call c hst' htok hrem]
            have hrec := ih none
              { call with
                pageToken := p.nextPageToken
                maxResults := 500 - (streamItems none p.items c).count }
              (streamItems none p.items c).count hcnt
            constructor
            · have h1 := S.1
              have hr1 := hrec.1
              simp only [combine, List.length_append]
              omega
            · intro l hl hcl
              exact Option.noConfusion hl
          | some l =>
            by_cases hnps :
                (if (500 : Int) - (streamItems (some l) p.items c).count >
                      l - (streamItems (some l) p.items c).count
                  then l - ((streamItems (some l) p.items c).count : Int)
                  else (500 : Int) - (streamItems (some l) p.items c).count) ≤ 0
            · rw [paginate_ok_next_some_stop l p rest call c hst' htok hrem hnps]
              constructor
              · have h1 := S.1
                have h2 := S.2.1 hc
                simp
                omega
              · intro l' hl' hcl
                injection hl' with hll
                subst hll
                have h1 := S.1
                have h4 := S.2.2.2.1 l rfl hcl
                simp
                omega
            · have hclt : ((streamItems (some l) p.items c).count : Int) < l := by
                by_cases hcmp : (500 : Int) - (streamItems (some l) p.items c).count >
                    l - (streamItems (some l) p.items c).count
                · rw [if_pos hcmp] at hnps
                  omega
                · rw [if_neg hcmp] at hnps
                  omega
              rw [paginate_ok_next_some l p rest call c hst' htok hrem hnps]
              have hrec := ih (some l)
                { call with
                  pageToken := p.nextPageToken
                  maxResults :=
                    if (500 : Int) - (streamItems (some l) p.items c).count >
                        l - (streamItems (some l) p.items c).count
                    then l - ((streamItems (some l) p.items c).count : Int)
                    else (500 : Int) - (streamItems (some l) p.items c).count }
                (streamItems (some l) p.items c).count hcnt
              constructor
              · have h1 := S.1
                have hr1 := hrec.1
                simp only [combine, List.length_append]
                omega
              · intro l' hl' hcl
                injection hl' with hll
                subst hll
                have h1 := S.1
                have hr2 := hrec.2 l rfl hclt
                simp only [combine, List.length_append]
                omega

lemma listGcp_window_empty (now : Int) (d : QueryData) (rs : List Resp)
    (h : (resolveWindow now (d.quals.lookup "time")).1 >
        (resolveWindow now (d.quals.lookup "time")).2) :
    listGcpAdminReportsLoginActivities now d rs = ⟨[], [], none, false⟩ := by
  simp only [listGcpAdminReportsLoginActivities]
  rw [if_pos h]

lemma listGcp_window_run (now : Int) (d : QueryData) (rs : List Resp)
    (h : ¬ (resolveWindow now (d.quals.lookup "time")).1 >
        (resolveWindow now (d.quals.lookup "time")).2) :
    listGcpAdminReportsLoginActivities now d rs =
      paginate d.limit rs
        ⟨(resolveWindow now (d.quals.lookup "time")).1,
          (resolveWindow now (d.quals.lookup "time")).2,
          mkFilters d, initialPageSize d.limit, ""⟩ 0 := by
  simp only [listGcpAdminReportsLoginActivities]
  rw [if_neg h]

lemma paginate_requests_budget : ∀ (rs : List Resp) (limit : Option Int) (call : CallState) (c : Nat),
    call.maxResults = requestBudget limit c →
    ∀ r ∈ (paginate limit rs call c).requests,
      r.call.maxResults = requestBudget limit r.countBefore := by
  intro rs
  induction rs with
  | nil =>
    intro limit call c hcall r hr
    rw [paginate_nil] at hr
    simp at hr
    subst hr
    simpa using hcall
  | cons resp rest ih =>
    intro limit call c hcall r hr
    cases resp with
    | err e =>
      rw [paginate_err_head] at hr
      simp at hr
      subst hr
      simpa using hcall
    | ok p =>
      by_cases hst : (streamItems limit p.items c).stopped = true
      · rw [paginate_ok_stopped limit p rest call c hst] at hr
        simp at hr
        subst hr
        simpa using hcall
      · have hst' : (streamItems limit p.items c).stopped = false := by
          revert hst
          cases (streamItems limit p.items c).stopped <;> simp
        by_cases htok : p.nextPageToken = ""
        · rw [paginate_ok_lastpage limit p rest call c hst' htok] at hr
          simp at hr
          subst hr
          simpa using hcall
        · by_cases hrem : (500 : Int) - (streamItems limit p.items c).count ≤ 0
          · rw [paginate_ok_capped limit p rest call c hst' htok hrem] at hr
            simp at hr
            subst hr
            simpa using hcall
          · cases limit with
            | none =>
              rw [paginate_ok_next_none p rest call c hst' htok hrem] at hr
              simp only [combine, List.mem_cons] at hr
              rcases hr with hr | hr
              · subst hr
                simpa using hcall
              · refine ih none _ (streamItems none p.items c).count ?_ r hr
                simp [requestBudget]
            | some l =>
              by_cases hnps :
                  (if (500 : Int) - (streamItems (some l) p.items c).count >
                        l - (streamItems (some l) p.items c).count
                    then l - ((streamItems (some l) p.items c).count : Int)
                    else (500 : Int) - (streamItems (some l) p.items c).count) ≤ 0
              · rw [paginate_ok_next_some_stop l p rest call c hst' htok hrem hnps] at hr
                simp at hr
                subst hr
                simpa using hcall
              · rw [paginate_ok_next_some l p rest call c hst' htok hrem hnps] at hr
                simp only [combine, List.mem_cons] at hr
                rcases hr with hr | hr
                · subst hr
                  simpa using hcall
                · refine ih (some l) _ (streamItems (some l) p.items c).count ?_ r hr
                  by_cases hcmp : (500 : Int) - (streamItems (some l) p.items c).count >
                      l - (streamItems (some l) p.items c).count
                  · simp [requestBudget, hcmp]
                    omega
                  · simp [requestBudget, hcmp]
                    omega

lemma paginate_err_spec : ∀ (rs : List Resp) (limit : Option Int) (call : CallState)
    (c : Nat) (e : String),
    (paginate limit rs call c).err = some e →
    ∃ k, rs[k]? = some (.err e) ∧
      (∀ j, j < k → ∃ p, rs[j]? = some (.ok p)) ∧
      (paginate limit rs call c).requests.length = k + 1 ∧
      ∃ reqs lastReq, (paginate limit rs call c).requests = reqs ++ [lastReq] ∧
        lastReq.countBefore = c + (paginate limit rs call c).emitted.length := by
  intro rs
  induction rs with
  | nil =>
    intro limit call c e he
    rw [paginate_nil] at he
    simp at he
  | cons resp rest ih =>
    intro limit call c e he
    cases resp with
    | err e' =>
      have hred := paginate_err_head limit e' rest call c
      rw [hred] at he
      simp at he
      subst he
      rw [hred]
      refine ⟨0, by simp, ?_, by simp, [], ⟨call, c⟩, by simp, by simp⟩
      intro j hj
      omega
    | ok p =>
      have S := streamItems_spec limit p.items c
      by_cases hst : (streamItems limit p.items c).stopped = true
      · rw [paginate_ok_stopped limit p rest call c hst] at he
        simp at he
      · have hst' : (streamItems limit p.items c).stopped = false := by
          revert hst
          cases (streamItems limit p.items c).stopped <;> simp
        by_cases htok : p.nextPageToken = ""
        · rw [paginate_ok_lastpage limit p rest call c hst' htok] at he
          simp at he
        · by_cases hrem : (500 : Int) - (streamItems limit p.items c).count ≤ 0
          · rw [paginate_ok_capped limit p rest call c hst' htok hrem] at he
            simp at he
          · cases limit with
            | none =>
              have hred := paginate_ok_next_none p rest call c hst' htok hrem
              rw [hred] at he
              simp only [combine] at he
              obtain ⟨k, h1, h2, h3, reqs, lastReq, h4, h5⟩ :=
                ih none _ (streamItems none p.items c).count e he
              rw [hred]
              refine ⟨k + 1, by simpa using h1, ?_, ?_, ⟨call, c⟩ :: reqs, lastReq, ?_, ?_⟩
              · intro j hj
                cases j with
                | zero => exact ⟨p, by simp⟩
                | succ j' => simpa using h2 j' (by omega)
              · simp only [combine, List.length_cons, h3]
              · simp only [combine, h4, List.cons_append]
              · have h0 := S.1
                simp only [combine, List.length_append]
                omega
            | some l =>
              by_cases hnps :
                  (if (500 : Int) - (streamItems (some l) p.items c).count >
                        l - (streamItems (some l) p.items c).count
                    then l - ((streamItems (some l) p.items c).count : Int)
                    else (500 : Int) - (streamItems (some l) p.items c).count) ≤ 0
              · rw [paginate_ok_next_some_stop l p rest call c hst' htok hrem hnps] at he
                simp at he
              · have hred := paginate_ok_next_some l p rest call c hst' htok hrem hnps
                rw [hred] at he
                simp only [combine] at he
                obtain ⟨k, h1, h2, h3, reqs, lastReq, h4, h5⟩ :=
                  ih (some l) _ (streamItems (some l) p.items c).count e he
                rw [hred]
                refine ⟨k + 1, by simpa using h1, ?_, ?_, ⟨call, c⟩ :: reqs, lastReq, ?_, ?_⟩
                · intro j hj
                  cases j with
                  | zero => exact ⟨p, by simp⟩
                  | succ j' => simpa using h2 j' (by omega)
                · simp only [combine, List.length_cons, h3]
                · simp only [combine, h4, List.cons_append]
                · have h0 := S.1
                  simp only [combine, List.length_append]
                  omega

/-- C1 counterexample: with a caller row limit of 0 and a server holding
one record, the fetch still streams that record — the row-budget check runs
only after an item has been streamed — so the emitted count exceeds
`min 500 rowLimit`. -/
theorem rowLimit_zero_overrun :
    (listGcpAdminReportsLoginActivities 0 queryLimit0 pagesOneItem).emitted.length = 1 ∧
    ¬ (((listGcpAdminReportsLoginActivities 0 queryLimit0 pagesOneItem).emitted.length : Int) ≤
        min 500 0) := by
  decide

/-- C1 (amended): the fetch never emits more than 500 records, and when the
caller supplies a row limit of at least 1 it also never emits more than
that limit.  (A limit of 0 is not honored: each page's first record is
streamed before the budget check fires.) -/
theorem emitted_le_cap_and_limit :
    ∀ (now : Int) (d : QueryData) (rs : List Resp),
      (listGcpAdminReportsLoginActivities now d rs).emitted.length ≤ 500 ∧
      (∀ l, d.limit = some l → 1 ≤ l →
        ((listGcpAdminReportsLoginActivities now d rs).emitted.length : Int) ≤ l) := by
  intro now d rs
  by_cases hw : (resolveWindow now (d.quals.lookup "time")).1 >
      (resolveWindow now (d.quals.lookup "time")).2
  · rw [listGcp_window_empty now d rs hw]
    constructor
    · simp
    · intro l hl h1
      simp
      omega
  · rw [listGcp_window_run now d rs hw]
    have hb := paginate_emitted_bound rs d.limit
      ⟨(resolveWindow now (d.quals.lookup "time")).1,
        (resolveWindow now (d.quals.lookup "time")).2,
        mkFilters d, initialPageSize d.limit, ""⟩ 0 (by norm_num)
    constructor
    · have h1 := hb.1
      omega
    · intro l hl h1
      have h2 := hb.2 l hl (by omega)
      omega

/-- C1 witness: with a row limit of 1 and a single two-record page, the
emitted count obeys both the 500 cap and the limit. -/
theorem emitted_le_cap_and_limit_witness :
    (listGcpAdminReportsLoginActivities 0 queryLimit1 pagesTwoItems).emitted.length ≤ 500 ∧
    ((listGcpAdminReportsLoginActivities 0 queryLimit1 pagesTwoItems).emitted.length : Int) ≤ 1 :=
  ⟨(emitted_le_cap_and_limit 0 queryLimit1 pagesTwoItems).1,
    (emitted_le_cap_and_limit 0 queryLimit1 pagesTwoItems).2 1 rfl (by decide)⟩

/-- C5: every page request asks for exactly the remaining budget — 500
minus the records already emitted, further lowered to the caller's
remaining row budget when a limit is given — so no request exceeds the
remaining allowance under either cap (the first request being
`min 500 rowLimit`). -/
theorem request_size_eq_budget :
    ∀ (now : Int) (d : QueryData) (rs : List Resp),
      ∀ r ∈ (listGcpAdminReportsLoginActivities now d rs).requests,
        r.call.maxResults = requestBudget d.limit r.countBefore ∧
        r.call.maxResults ≤ 500 - (r.countBefore : Int) ∧
        (∀ l, d.limit = some l → r.call.maxResults ≤ l - (r.countBefore : Int)) := by
  intro now d rs r hr
  by_cases hw : (resolveWindow now (d.quals.lookup "time")).1 >
      (resolveWindow now (d.quals.lookup "time")).2
  · rw [listGcp_window_empty now d rs hw] at hr
    simp at hr
  · rw [listGcp_window_run now d rs hw] at hr
    have hinit :
        (⟨(resolveWindow now (d.quals.lookup "time")).1,
          (resolveWindow now (d.quals.lookup "time")).2,
          mkFilters d, initialPageSize d.limit, ""⟩ : CallState).maxResults =
          requestBudget d.limit 0 := by
      cases d.limit with
      | none => simp [initialPageSize, requestBudget]
      | some l =>
        simp only [initialPageSize, requestBudget]
        split <;> omega
    have heq := paginate_requests_budget rs d.limit _ 0 hinit r hr
    refine ⟨heq, ?_, ?_⟩
    · rw [heq]
      cases d.limit with
      | none => simp [requestBudget]
      | some l =>
        simp only [requestBudget]
        omega
    · intro l hl
      rw [heq, hl]
      simp only [requestBudget]
      omega

/-- C5 witness: for the run with row limit 7 over a three-record page and a
continuation, the first request is a member of the request trace and asks
for exactly `min 500 7 = 7` records. -/
theorem request_size_eq_budget_witness :
    reqLimit7First ∈
      (listGcpAdminReportsLoginActivities 0 queryLimit7 pagesThreeThenEmpty).requests ∧
    reqLimit7First.call.maxResults = requestBudget (some 7) reqLimit7First.countBefore :=
  ⟨by decide,
    (request_size_eq_budget 0 queryLimit7 pagesThreeThenEmpty reqLimit7First (by decide)).1⟩

/-- C6: whenever the fetch ends with an error, that error is exactly the
one returned by the remote source at the last issued request: all earlier
requests received successful pages, exactly one request follows them (the
failing one — no retry, no further page), and every record streamed before
the failing request is present in the emitted trace (the failing request's
emitted-count ghost equals the final emitted length). -/
theorem page_error_aborts_fetch :
    ∀ (now : Int) (d : QueryData) (rs : List Resp) (e : String),
      (listGcpAdminReportsLoginActivities now d rs).err = some e →
      ∃ k, rs[k]? = some (.err e) ∧
        (∀ j, j < k → ∃ p, rs[j]? = some (.ok p)) ∧
        (listGcpAdminReportsLoginActivities now d rs).requests.length = k + 1 ∧
        ∃ reqs lastReq,
          (listGcpAdminReportsLoginActivities now d rs).requests = reqs ++ [lastReq] ∧
          lastReq.countBefore =
            (listGcpAdminReportsLoginActivities now d rs).emitted.length := by
  intro now d rs e he
  by_cases hw : (resolveWindow now (d.quals.lookup "time")).1 >
      (resolveWindow now (d.quals.lookup "time")).2
  · rw [listGcp_window_empty now d rs hw] at he
    simp at he
  · have hred := listGcp_window_run now d rs hw
    rw [hred] at he ⊢
    obtain ⟨k, h1, h2, h3, reqs, lastReq, h4, h5⟩ :=
      paginate_err_spec rs d.limit _ 0 e he
    exact ⟨k, h1, h2, h3, reqs, lastReq, h4, by simpa using h5⟩

/-- C6 witness: a run whose second page request fails with "boom" — the
error index, request count, request-list decomposition and preserved
one-record emission, obtained from the theorem at this concrete input. -/
theorem page_error_aborts_fetch_witness :
    ∃ k, pagesThenError[k]? = some (.err "boom") ∧
      (∀ j, j < k → ∃ p, pagesThenError[j]? = some (.ok p)) ∧
      (listGcpAdminReportsLoginActivities 0 queryNoQuals pagesThenError).requests.length =
        k + 1 ∧
      ∃ reqs lastReq,
        (listGcpAdminReportsLoginActivities 0 queryNoQuals pagesThenError).requests =
          reqs ++ [lastReq] ∧
        lastReq.countBefore =
          (listGcpAdminReportsLoginActivities 0 queryNoQuals pagesThenError).emitted.length :=
  page_error_aborts_fetch 0 queryNoQuals pagesThenError "boom" (by decide)
